import Mathlib

/-!
Verification of the SBR autofill automation core (`sbr_automation` package).

The Python sources are shallowly embedded: pure helpers (`utils.norm_phone`,
`loader._normalize_status`, `excel_loader.slice_rows`, `resume.load_resume_entries`,
`utils.with_retry`) become Lean functions over `String` / `List`, and the
row-processing loop of `autofill.process_autofill` becomes a fold over a list of
per-row environments that record the answers the external UI would have given.
-/

namespace Sbr

/-! ### Python string primitives

Python strings are modelled as Lean `String`; the handful of `str` methods the
sources use (`isdigit`, `strip`, `lower`, `upper`, whitespace handling in the
`re` calls) are modelled over the underlying character list, restricted to the
ASCII range the data actually uses. -/

/-- Python `\s` character class (ASCII part): space, tab, newline, carriage
return, vertical tab, form feed. -/
def isPySpace (c : Char) : Bool :=
  c.toNat = 32 || c.toNat = 9 || c.toNat = 10 || c.toNat = 13 ||
    c.toNat = 11 || c.toNat = 12

/-- Python `str.isdigit` membership test for one character (ASCII digits). -/
def isPyDigit (c : Char) : Bool :=
  48 ≤ c.toNat && c.toNat ≤ 57

/-- Python `str.isdigit`: non-empty and all characters are digits. -/
def pyIsdigit (s : String) : Bool :=
  !s.data.isEmpty && s.data.all isPyDigit

/-- Python `str.strip()`: drop whitespace from both ends. -/
def pyStrip (s : String) : String :=
  ⟨((s.data.dropWhile isPySpace).reverse.dropWhile isPySpace).reverse⟩

/-- Python `str.lower` (ASCII). -/
def pyLower (s : String) : String :=
  ⟨s.data.map Char.toLower⟩

/-- Python `str.upper` (ASCII). -/
def pyUpper (s : String) : String :=
  ⟨s.data.map Char.toUpper⟩

/-- Python `int(s)` on a digit string. -/
def pyInt (s : String) : Nat :=
  s.data.foldl (fun n c => n * 10 + (c.toNat - 48)) 0

/-! ### `utils.py` -/

/-- Collapse every maximal run of whitespace to a single space, as
`re.sub(r"\s+", " ", value)` does.  The flag records whether the previous
character belonged to a whitespace run whose replacement space was already
emitted. -/
def collapseWsAux : Bool → List Char → List Char
  | _, [] => []
  | inRun, c :: rest =>
    if isPySpace c then
      if inRun then collapseWsAux true rest
      else ' ' :: collapseWsAux true rest
    else c :: collapseWsAux false rest

/-- Model of `re.sub(r"\s+", " ", value)` over a character list. -/
def collapseWs (l : List Char) : List Char :=
  collapseWsAux false l

/-- Model of `utils.norm_space` on the string branch:
`re.sub(r"\s+", " ", value).strip()`. -/
def norm_space (value : String) : String :=
  pyStrip ⟨collapseWs value.data⟩

/-- Model of `utils.norm_phone`: `"".join(re.findall(r"\d", norm_space(value)))`. -/
def norm_phone (value : String) : String :=
  ⟨(norm_space value).data.filter isPyDigit⟩

/-- One run of `utils.with_retry`'s `for i in range(attempts)` loop:
`fuel` attempts remain, `i` is the current call number, `last` the last
exception seen.  `fn i` is the outcome of the `i`-th call of the wrapped
coroutine. -/
def retryLoop (fn : Nat → Except ε α) : Nat → Nat → Option ε → Except ε (Option α)
  | 0, _, last =>
    match last with
    | some e => Except.error e
    | none => Except.ok none
  | fuel + 1, i, _ =>
    match fn i with
    | Except.ok a => Except.ok (some a)
    | Except.error e =>
      if fuel = 0 then Except.error e
      else retryLoop fn fuel (i + 1) (some e)

/-- Model of `utils.with_retry`: run `fn` up to `attempts` times; return the first
success, re-raise the last exception when all attempts fail, and fall through
to `None` when the loop body never runs (`range(attempts)` empty). -/
def with_retry (fn : Nat → Except ε α) (attempts : Int) : Except ε (Option α) :=
  retryLoop fn attempts.toNat 0 none

/-! ### `loader.py` status normalization -/

/-- The alias table `loader.STATUS_NORMALIZATION`. -/
def STATUS_NORMALIZATION : List (String × String) :=
  [("aktif nonrespons", "Aktif Nonrespon"),
   ("belum berproduksi", "Belum Beroperasi/Berproduksi")]

/-- The table `loader.STATUS_NUMERIC_MAP`. -/
def STATUS_NUMERIC_MAP : List (String × String) :=
  [("1", "Aktif"),
   ("2", "Tutup Sementara"),
   ("3", "Belum Beroperasi/Berproduksi"),
   ("4", "Tutup"),
   ("5", "Alih Usaha"),
   ("6", "Tidak Ditemukan"),
   ("7", "Aktif Pindah"),
   ("8", "Aktif Nonrespon"),
   ("9", "Duplikat"),
   ("10", "Salah Kode Wilayah"),
   ("11", "Salah Kode Wilayah")]

/-- Model of `loader._normalize_status`.  The numeric branch mirrors Python truthiness:
`mapped = STATUS_NUMERIC_MAP.get(status.strip()); if mapped: return mapped`. -/
def normalize_status (status : String) : String :=
  if status = "" then ""
  else
    let viaNumeric : Option String :=
      if pyIsdigit status then
        match STATUS_NUMERIC_MAP.lookup (pyStrip status) with
        | some mapped => if mapped = "" then none else some mapped
        | none => none
      else none
    match viaNumeric with
    | some mapped => mapped
    | none => ((STATUS_NORMALIZATION.lookup (pyLower status)).getD status)

/-! ### `resume.py` -/

/-- One row of a prior run's log CSV, as read by `csv.DictReader`. -/
structure CsvRow where
  row_index : String
  level : String
  stage : String
  note : String
deriving DecidableEq, Repr

/-- Python `dict` assignment `d[k] = v`: replace the value in place when the
key exists, append the binding otherwise (insertion-order preserved). -/
def dictInsert (m : List (Nat × CsvRow)) (k : Nat) (v : CsvRow) : List (Nat × CsvRow) :=
  if m.any (fun p => p.1 = k) then
    m.map (fun p => if p.1 = k then (k, v) else p)
  else m ++ [(k, v)]

/-- The dict comprehension in `resume.load_resume_entries`:
`{int(row["row_index"]): row for row in reader if row.get("row_index", "").isdigit()}`. -/
def buildEntries (rows : List CsvRow) : List (Nat × CsvRow) :=
  rows.foldl
    (fun acc row =>
      if pyIsdigit row.row_index then dictInsert acc (pyInt row.row_index) row
      else acc)
    []

/-- Membership in `resume.RESUME_ELIGIBLE_LEVELS`: `level in {"OK"}` after
`(row.get("level") or "").upper()`. -/
def resumeEligibleLevel (level : String) : Bool :=
  pyUpper level = "OK"

/-- The selection loop of `resume.load_resume_entries`: keep entries whose key
lies in `[start_display, end_display]` and whose level is eligible. -/
def load_resume_entries (rows : List CsvRow) (start_display end_display : Nat) :
    List (Nat × CsvRow) :=
  (buildEntries rows).filter
    (fun p =>
      if p.1 < start_display || end_display < p.1 then false
      else resumeEligibleLevel p.2.level)

/-! ### `excel_loader.slice_rows` and the context-building part of
`loader.load_rows`

The dataframe is abstracted to its row count `n`; only the index bookkeeping
of the slice and of the produced `RowContext`s is modelled. -/

/-- Model of `excel_loader.slice_rows`:
`start_idx = 0 if start is None else max(start - 1, 0)` and
`end_idx = len(df) if end is None else min(end, len(df))`. -/
def slice_rows (n : Nat) (start stop : Option Int) : Int × Int :=
  (match start with
   | none => 0
   | some s => max (s - 1) 0,
   match stop with
   | none => (n : Int)
   | some e => min e (n : Int))

/-- The index fields of `models.RowContext` (the remaining fields are
normalized strings irrelevant to the range bookkeeping). -/
structure RowContextIdx where
  table_index : Int
  display_index : Int
deriving DecidableEq, Repr

/-- Python `range(a, b)` over integers. -/
def intRange (a b : Int) : List Int :=
  (List.range (b - a).toNat).map (fun j => a + Int.ofNat j)

/-- The slice/context/display bookkeeping of `loader.load_rows`:
`contexts.append(_context_from_row(df.iloc[i], i, i + 1))` for
`i in range(start_idx, end_idx)`, plus `start_display = start_idx + 1` and
`end_display = end_idx if end_idx else len(df)` (Python truthiness: a zero
`end_idx` falls back to `len(df)`). -/
def load_rows (n : Nat) (start stop : Option Int) :
    List RowContextIdx × Int × Int :=
  let se := slice_rows n start stop
  let contexts := (intRange se.1 se.2).map (fun i => ⟨i, i + 1⟩)
  (contexts, se.1 + 1, if se.2 ≠ 0 then se.2 else (n : Int))

/-! ### `table_actions.click_edit_by_index`

A rendered table row is abstracted to the availability of its primary edit
anchor, its fallback anchor, and whether clicking each would succeed. -/

/-- One `tbody > tr` of the on-page table. -/
structure TableRowUi where
  hasEditBtn : Bool
  hasFallbackBtn : Bool
  editClickOk : Bool
  fallbackClickOk : Bool
deriving DecidableEq, Repr

/-- Model of `table_actions.click_edit_by_index`.  Returns the boolean result together
with whether a click was actually performed (the `perform_click=False` path
only verifies presence). -/
def click_edit_by_index (rows : List TableRowUi) (index0 : Nat)
    (perform_click : Bool) : Bool × Bool :=
  match rows[index0]? with
  | none => (false, false)
  | some row =>
    if !row.hasEditBtn then
      if !row.hasFallbackBtn then (false, false)
      else if !perform_click then (true, false)
      else (row.fallbackClickOk, true)
    else if !perform_click then (true, false)
    else (row.editClickOk, true)

/-! ### `submitter.is_finalized_form`

The form page is abstracted to the visibility of the cancel-submit control and
of the two "Submit Final" candidate locators. -/

/-- Visibility state of the opened form page. -/
structure FormPage where
  cancelSubmitVisible : Bool
  submitFinalRoleVisible : Bool
  submitFinalTextVisible : Bool
deriving DecidableEq, Repr

/-- Model of `submitter.is_finalized_form`: the cancel-submit control is visible and no
"Submit Final" candidate is visible. -/
def is_finalized_form (page : FormPage) : Bool :=
  if !page.cancelSubmitVisible then false
  else if page.submitFinalRoleVisible then false
  else if page.submitFinalTextVisible then false
  else true

/-! ### The row loop of `autofill.process_autofill`

Each row's interaction with the external UI is summarised by a `RowEnv`: the
answers the awaited calls would return (`Except.error` marks a raised
exception).  `rowStep` replays the loop body's branch structure on those
answers; `runLoop` folds it over the row list with the `stop_on_error`
break. -/

/-- The options consulted by the loop body (`config.AutofillOptions`). -/
structure Options where
  match_by : String
  stop_on_error : Bool
  resume : Bool
  dry_run : Bool
deriving DecidableEq, Repr

/-- The per-row slice of `models.RowContext` the loop body consults. -/
structure Ctx where
  display_index : Nat
  idsbr : String
  nama : String
deriving DecidableEq, Repr

/-- Outcome of the `fill_form` call: updated count, skipped count, error
messages. -/
structure FillSummary where
  updated : Nat
  skippedFields : Nat
  errors : List String
deriving DecidableEq, Repr

instance exceptDecEq {ε α : Type} [DecidableEq ε] [DecidableEq α] :
    DecidableEq (Except ε α)
  | Except.ok a, Except.ok b =>
    if h : a = b then Decidable.isTrue (by rw [h])
    else Decidable.isFalse (by intro hh; cases hh; exact h rfl)
  | Except.ok _, Except.error _ => Decidable.isFalse (by intro hh; cases hh)
  | Except.error _, Except.ok _ => Decidable.isFalse (by intro hh; cases hh)
  | Except.error a, Except.error b =>
    if h : a = b then Decidable.isTrue (by rw [h])
    else Decidable.isFalse (by intro hh; cases hh; exact h rfl)

/-- Answers of the awaited UI calls for one row, in the order the loop body
makes them.  `Except.error ()` models the call raising. -/
structure RowEnv where
  click : Except Unit Bool
  openPage : Bool
  openNote : Option String
  finalized : Except Unit Bool
  locked : Bool
  fill : Except Unit FillSummary
  submit : Except Unit String
deriving DecidableEq, Repr

/-- One CSV log line (`logbook.LogEvent`), restricted to the fields the claims
speak about. -/
structure Ev where
  row_index : Nat
  level : String
  stage : String
deriving DecidableEq, Repr

/-- Which run counter the row incremented. -/
inductive Outcome where
  | okRow
  | errorRow
  | skipRow
deriving DecidableEq, Repr

/-- Result of one iteration of the row loop. -/
structure RowResult where
  events : List Ev
  outcome : Outcome
  formOpened : Bool
deriving DecidableEq, Repr

/-- Remove the binding for `k` (Python `dict.pop` on a present key). -/
def dictPop (m : List (Nat × CsvRow)) (k : Nat) : List (Nat × CsvRow) :=
  m.filter (fun p => p.1 ≠ k)

/-- The body of `for ctx in contexts` in `autofill.process_autofill`, replayed
on a `RowEnv`.  Returns the row's log events, counter outcome, whether
`open_form_page` was reached, and the resume dict after a possible `pop`. -/
def rowStep (opts : Options) (resume : List (Nat × CsvRow)) (c : Ctx)
    (e : RowEnv) : RowResult × List (Nat × CsvRow) :=
  match (if opts.resume then resume.lookup c.display_index else none) with
  | some _ =>
    (⟨[⟨c.display_index, "OK", "RESUME_SKIP"⟩], Outcome.skipRow, false⟩,
     dictPop resume c.display_index)
  | none =>
    match e.click with
    | Except.error _ =>
      (⟨[⟨c.display_index, "ERROR", "CLICK_EDIT"⟩], Outcome.errorRow, false⟩, resume)
    | Except.ok clicked =>
      if !clicked then
        (⟨[⟨c.display_index, "ERROR", "CLICK_EDIT"⟩], Outcome.errorRow, false⟩, resume)
      else if opts.dry_run then
        (⟨[⟨c.display_index, "OK", "DRY_RUN"⟩], Outcome.okRow, false⟩, resume)
      else if !e.openPage then
        (⟨[⟨c.display_index, "ERROR", "OPEN_TAB"⟩], Outcome.errorRow, true⟩, resume)
      else
        let openEvs : List Ev :=
          match e.openNote with
          | some _ => [⟨c.display_index, "OK", "OPEN_TAB"⟩]
          | none => []
        if (e.finalized.toOption.getD false) then
          (⟨openEvs ++ [⟨c.display_index, "OK", "FINAL_SKIP"⟩], Outcome.skipRow, true⟩, resume)
        else if e.locked then
          (⟨openEvs ++ [⟨c.display_index, "WARN", "ACCESS"⟩], Outcome.skipRow, true⟩, resume)
        else
          match e.fill with
          | Except.error _ =>
            (⟨openEvs ++ [⟨c.display_index, "ERROR", "FILL"⟩], Outcome.errorRow, true⟩, resume)
          | Except.ok summary =>
            if summary.errors ≠ [] then
              (⟨openEvs ++ [⟨c.display_index, "ERROR", "FILL"⟩], Outcome.errorRow, true⟩, resume)
            else
              let fillEv : List Ev := [⟨c.display_index, "OK", "FILL"⟩]
              match e.submit with
              | Except.error _ =>
                (⟨openEvs ++ fillEv ++ [⟨c.display_index, "ERROR", "SUBMIT"⟩],
                  Outcome.errorRow, true⟩, resume)
              | Except.ok code =>
                if code ≠ "OK" then
                  (⟨openEvs ++ fillEv ++ [⟨c.display_index, "ERROR", "SUBMIT"⟩],
                    Outcome.errorRow, true⟩, resume)
                else
                  (⟨openEvs ++ fillEv ++
                      [⟨c.display_index, "OK", "SUBMIT"⟩,
                       ⟨c.display_index, "OK", "ROW_DONE"⟩],
                    Outcome.okRow, true⟩, resume)

/-- Run-level accumulator of `process_autofill`. -/
structure RunState where
  ok_rows : Nat
  error_rows : Nat
  skipped_rows : Nat
  events : List Ev
  processed : List Nat
deriving DecidableEq, Repr

/-- The `for ctx in contexts` loop with the `stop_on_error` break: each
processed row contributes its events and exactly one counter increment; after
an ERROR outcome the loop breaks when `stop_on_error` is set. -/
def runLoop (opts : Options) (resume : List (Nat × CsvRow)) :
    List (Ctx × RowEnv) → RunState
  | [] => ⟨0, 0, 0, [], []⟩
  | (c, e) :: rest =>
    let p := rowStep opts resume c e
    let tail :=
      if opts.stop_on_error && p.1.outcome == Outcome.errorRow then
        (⟨0, 0, 0, [], []⟩ : RunState)
      else runLoop opts p.2 rest
    ⟨(if p.1.outcome == Outcome.okRow then 1 else 0) + tail.ok_rows,
     (if p.1.outcome == Outcome.errorRow then 1 else 0) + tail.error_rows,
     (if p.1.outcome == Outcome.skipRow then 1 else 0) + tail.skipped_rows,
     p.1.events ++ tail.events,
     c.display_index :: tail.processed⟩

/-- The per-row results the loop would compute if it never broke (used to
phrase where the `stop_on_error` break lands). -/
def runSeq (opts : Options) (resume : List (Nat × CsvRow)) :
    List (Ctx × RowEnv) → List RowResult
  | [] => []
  | (c, e) :: rest =>
    let p := rowStep opts resume c e
    p.1 :: runSeq opts p.2 rest

/-- Index of the first ERROR-outcome row. -/
def firstErrIdx : List RowResult → Option Nat
  | [] => none
  | r :: rest =>
    if r.outcome == Outcome.errorRow then some 0
    else (firstErrIdx rest).map (· + 1)

/-- Number of rows a `stop_on_error` run processes: through the first
ERROR-outcome row inclusive, or all `len` rows when none errors. -/
def haltCount (s : List RowResult) (len : Nat) : Nat :=
  match firstErrIdx s with
  | some j => j + 1
  | none => len

/-! ## Helper lemmas -/

lemma isPySpace_not_digit {c : Char} (h : isPySpace c = true) : isPyDigit c = false := by
  simp only [isPySpace, Bool.or_eq_true, decide_eq_true_eq] at h
  simp only [isPyDigit, Bool.and_eq_false_iff, decide_eq_false_iff_not, not_le]
  omega

lemma isPyDigit_not_space {c : Char} (h : isPyDigit c = true) : isPySpace c = false := by
  simp only [isPyDigit, Bool.and_eq_true, decide_eq_true_eq] at h
  simp only [isPySpace, Bool.or_eq_false_iff, decide_eq_false_iff_not]
  omega

lemma filter_digit_collapseWsAux (l : List Char) :
    ∀ b, (collapseWsAux b l).filter isPyDigit = l.filter isPyDigit := by
  induction l with
  | nil => intro b; simp [collapseWsAux]
  | cons c rest ih =>
    intro b
    by_cases hc : isPySpace c = true
    · have hd := isPySpace_not_digit hc
      have hsp : isPyDigit ' ' = false := by decide
      cases b <;> simp [collapseWsAux, hc, hd, hsp, ih]
    · simp [collapseWsAux, hc, ih, List.filter_cons]

lemma filter_digit_dropWhile_space (l : List Char) :
    (l.dropWhile isPySpace).filter isPyDigit = l.filter isPyDigit := by
  induction l with
  | nil => simp
  | cons c rest ih =>
    by_cases hc : isPySpace c = true
    · have hd := isPySpace_not_digit hc
      simp [List.dropWhile_cons, hc, ih, List.filter_cons, hd]
    · simp [List.dropWhile_cons, hc]

lemma filter_digit_pyStrip (s : String) :
    (pyStrip s).data.filter isPyDigit = s.data.filter isPyDigit := by
  show (((s.data.dropWhile isPySpace).reverse.dropWhile isPySpace).reverse.filter isPyDigit)
      = s.data.filter isPyDigit
  rw [List.filter_reverse, filter_digit_dropWhile_space, List.filter_reverse,
    List.reverse_reverse, filter_digit_dropWhile_space]

lemma filter_digit_norm_space (s : String) :
    (norm_space s).data.filter isPyDigit = s.data.filter isPyDigit := by
  show (pyStrip ⟨collapseWs s.data⟩).data.filter isPyDigit = _
  rw [filter_digit_pyStrip]
  show (collapseWsAux false s.data).filter isPyDigit = _
  rw [filter_digit_collapseWsAux]

/-! ## Claim theorems -/

/-- C8: for every input string `x`, `norm_phone` returns exactly the digit
characters of `x`, in order, and is idempotent. -/
theorem norm_phone_keeps_digits_and_idempotent (x : String) :
    norm_phone x = ⟨x.data.filter isPyDigit⟩ ∧
      norm_phone (norm_phone x) = norm_phone x := by
  have key : ∀ s : String, norm_phone s = ⟨s.data.filter isPyDigit⟩ := by
    intro s
    show (⟨(norm_space s).data.filter isPyDigit⟩ : String) = _
    rw [filter_digit_norm_space]
  refine ⟨key x, ?_⟩
  rw [key x, key ⟨x.data.filter isPyDigit⟩]
  show (⟨(x.data.filter isPyDigit).filter isPyDigit⟩ : String) = _
  congr 1
  exact List.filter_eq_self.mpr (fun a ha => List.of_mem_filter ha)

/-- C10: a non-positive attempt budget makes `with_retry` return `None`
without raising, whatever the wrapped operation does. -/
theorem with_retry_nonpositive_attempts {ε α : Type} (fn : Nat → Except ε α)
    (attempts : Int) (h : attempts ≤ 0) :
    with_retry fn attempts = Except.ok none := by
  unfold with_retry
  rw [Int.toNat_of_nonpos h]
  rfl

/-- Witness for C10 at `attempts = -1`. -/
theorem with_retry_nonpositive_attempts_witness :
    with_retry (fun _ => (Except.error () : Except Unit Nat)) (-1) = Except.ok none :=
  with_retry_nonpositive_attempts _ _ (by decide)

lemma retryLoop_first_success {ε α : Type} (fn : Nat → Except ε α) :
    ∀ fuel i last k a, k < fuel → (∀ j, j < k → ∃ e, fn (i + j) = Except.error e) →
      fn (i + k) = Except.ok a → retryLoop fn fuel i last = Except.ok (some a) := by
  intro fuel
  induction fuel with
  | zero => intro i last k a hk; omega
  | succ f ih =>
    intro i last k a hk hfail hok
    match k with
    | 0 =>
      rw [Nat.add_zero] at hok
      unfold retryLoop
      rw [hok]
    | k' + 1 =>
      obtain ⟨e, he⟩ := hfail 0 (by omega)
      rw [Nat.add_zero] at he
      unfold retryLoop
      rw [he]
      dsimp only
      have hf : ¬ f = 0 := by omega
      rw [if_neg hf]
      refine ih (i + 1) (some e) k' a (by omega) ?_ ?_
      · intro j hj
        obtain ⟨x, hx⟩ := hfail (j + 1) (by omega)
        exact ⟨x, by rwa [show i + (j + 1) = i + 1 + j by omega] at hx⟩
      · rwa [show i + (k' + 1) = i + 1 + k' by omega] at hok

lemma retryLoop_all_fail {ε α : Type} (fn : Nat → Except ε α) :
    ∀ fuel i last e, 0 < fuel → (∀ j, j < fuel → ∃ x, fn (i + j) = Except.error x) →
      fn (i + (fuel - 1)) = Except.error e → retryLoop fn fuel i last = Except.error e := by
  intro fuel
  induction fuel with
  | zero => intro i last e h; omega
  | succ f ih =>
    intro i last e _ hfail hlast
    obtain ⟨x, hx⟩ := hfail 0 (by omega)
    rw [Nat.add_zero] at hx
    unfold retryLoop
    rw [hx]
    dsimp only
    by_cases hf : f = 0
    · subst hf
      rw [if_pos rfl]
      rw [show 0 + 1 - 1 = 0 by rfl, Nat.add_zero] at hlast
      have hxe : x = e := Except.error.inj (hx.symm.trans hlast)
      rw [hxe]
    · rw [if_neg hf]
      refine ih (i + 1) (some x) e (by omega) ?_ ?_
      · intro j hj
        obtain ⟨y, hy⟩ := hfail (j + 1) (by omega)
        exact ⟨y, by rwa [show i + (j + 1) = i + 1 + j by omega] at hy⟩
      · rwa [show i + (f + 1 - 1) = i + 1 + (f - 1) by omega] at hlast

/-- C7: `with_retry` returns the first successful attempt's result (any
failures before it notwithstanding), and when every attempt raises it
re-raises the final attempt's exception. -/
theorem with_retry_first_success_or_last_error :
    (∀ {ε α : Type} (fn : Nat → Except ε α) (attempts : Int) (k : Nat) (a : α),
       k < attempts.toNat → (∀ j, j < k → ∃ e, fn j = Except.error e) →
       fn k = Except.ok a → with_retry fn attempts = Except.ok (some a)) ∧
    (∀ {ε α : Type} (fn : Nat → Except ε α) (attempts : Int) (e : ε),
       0 < attempts.toNat → (∀ j, j < attempts.toNat → ∃ x, fn j = Except.error x) →
       fn (attempts.toNat - 1) = Except.error e → with_retry fn attempts = Except.error e) := by
  constructor
  · intro ε α fn attempts k a hk hfail hok
    unfold with_retry
    refine retryLoop_first_success fn attempts.toNat 0 none k a hk ?_ ?_
    · intro j hj
      simpa using hfail j hj
    · simpa using hok
  · intro ε α fn attempts e hpos hfail hlast
    unfold with_retry
    refine retryLoop_all_fail fn attempts.toNat 0 none e hpos ?_ ?_
    · intro j hj
      simpa using hfail j hj
    · simpa using hlast

/-- Witness for C7: an operation that fails once then succeeds completes with
the success value at `attempts = 2`; an always-failing operation surfaces the
final failure at `attempts = 1`. -/
theorem with_retry_first_success_or_last_error_witness :
    with_retry (fun j => if j = 0 then (Except.error () : Except Unit Nat) else Except.ok 7) 2
        = Except.ok (some 7) ∧
      with_retry (fun _ => (Except.error 42 : Except Nat Nat)) 1 = Except.error 42 := by
  constructor
  · exact with_retry_first_success_or_last_error.1 _ 2 1 7 (by decide)
      (fun j hj => ⟨(), by
        have hj0 : j = 0 := by omega
        subst hj0
        rfl⟩) rfl
  · exact with_retry_first_success_or_last_error.2 _ 1 42 (by decide)
      (fun j _ => ⟨42, rfl⟩) rfl

lemma lookup_mem {β : Type} :
    ∀ (l : List (String × β)) (a : String) (b : β), l.lookup a = some b → (a, b) ∈ l := by
  intro l
  induction l with
  | nil => intro a b h; simp [List.lookup] at h
  | cons p t ih =>
    intro a b h
    obtain ⟨k, v⟩ := p
    rw [List.lookup_cons] at h
    by_cases hak : a = k
    · subst hak
      simp only [beq_self_eq_true] at h
      cases h
      exact List.mem_cons_self _ _
    · have hbeq : (a == k) = false := beq_false_of_ne hak
      rw [hbeq] at h
      exact List.mem_cons_of_mem _ (ih a b h)

lemma numeric_map_entries :
    ∀ p ∈ STATUS_NUMERIC_MAP, pyIsdigit p.1 = true ∧ p.2 ≠ "" := by decide

lemma dropWhile_space_of_all_digit {l : List Char} (h : l.all isPyDigit = true) :
    l.dropWhile isPySpace = l := by
  cases l with
  | nil => rfl
  | cons c rest =>
    have hc : isPyDigit c = true := by
      simp only [List.all_cons, Bool.and_eq_true] at h
      exact h.1
    rw [List.dropWhile_cons, isPyDigit_not_space hc]
    simp

lemma pyStrip_of_isdigit {s : String} (h : pyIsdigit s = true) : pyStrip s = s := by
  simp only [pyIsdigit, Bool.and_eq_true, Bool.not_eq_true'] at h
  obtain ⟨-, hall⟩ := h
  have hrev : s.data.reverse.all isPyDigit = true := by
    rw [List.all_reverse]
    exact hall
  show (⟨((s.data.dropWhile isPySpace).reverse.dropWhile isPySpace).reverse⟩ : String) = s
  rw [dropWhile_space_of_all_digit hall, dropWhile_space_of_all_digit hrev,
    List.reverse_reverse]

/-- C6: `_normalize_status` maps the numeric strings `"1"`..`"11"` through
`STATUS_NUMERIC_MAP` and every other string through the alias table on its
lowercase form, defaulting to the string itself. -/
theorem normalize_status_numeric_then_alias (s : String) :
    normalize_status s =
      match STATUS_NUMERIC_MAP.lookup s with
      | some m => m
      | none => (STATUS_NORMALIZATION.lookup (pyLower s)).getD s := by
  by_cases hs : s = ""
  · subst hs; decide
  · by_cases hd : pyIsdigit s = true
    · cases hl : STATUS_NUMERIC_MAP.lookup s with
      | some m =>
        have hm : m ≠ "" := (numeric_map_entries _ (lookup_mem _ _ _ hl)).2
        simp [normalize_status, hs, hd, pyStrip_of_isdigit hd, hl, hm]
      | none =>
        simp [normalize_status, hs, hd, pyStrip_of_isdigit hd, hl]
    · have hl : STATUS_NUMERIC_MAP.lookup s = none := by
        cases hl2 : STATUS_NUMERIC_MAP.lookup s with
        | none => rfl
        | some m =>
          exact absurd ((numeric_map_entries _ (lookup_mem _ _ _ hl2)).1) hd
      simp [normalize_status, hs, hd, hl]

lemma intRange_getElem? (a b : Int) (j : Nat) :
    (intRange a b)[j]? =
      if j < (b - a).toNat then some (a + (j : Int)) else none := by
  unfold intRange
  rw [List.getElem?_map]
  by_cases hj : j < (b - a).toNat
  · rw [List.getElem?_range hj, if_pos hj]
    rfl
  · rw [if_neg hj, List.getElem?_eq_none, Option.map_none']
    rw [List.length_range]
    omega

/-- C5: the requested 1-indexed inclusive range becomes the half-open
0-indexed slice `[max(start-1,0), min(end,n))`, with absent bounds meaning `0`
and `n`; the `j`-th produced context carries `table_index = start_idx + j`
and `display_index = table_index + 1` (1 + the original row offset). -/
theorem load_rows_slice_and_display_index (n : Nat) (start stop : Option Int) :
    (slice_rows n start stop).1
        = (match start with | none => 0 | some s => max (s - 1) 0) ∧
      (slice_rows n start stop).2
        = (match stop with | none => (n : Int) | some e => min e (n : Int)) ∧
      (∀ j : Nat,
        ((load_rows n start stop).1)[j]? =
          if j < ((slice_rows n start stop).2 - (slice_rows n start stop).1).toNat then
            some ⟨(slice_rows n start stop).1 + (j : Int),
                  (slice_rows n start stop).1 + (j : Int) + 1⟩
          else none) ∧
      (∀ ctx ∈ (load_rows n start stop).1, ctx.display_index = ctx.table_index + 1) := by
  refine ⟨rfl, rfl, ?_, ?_⟩
  · intro j
    show ((intRange (slice_rows n start stop).1 (slice_rows n start stop).2).map
        (fun i => (⟨i, i + 1⟩ : RowContextIdx)))[j]? = _
    rw [List.getElem?_map, intRange_getElem?]
    by_cases hj : j < ((slice_rows n start stop).2 - (slice_rows n start stop).1).toNat
    · rw [if_pos hj, if_pos hj]
      rfl
    · rw [if_neg hj, if_neg hj]
      rfl
  · intro ctx hctx
    obtain ⟨i, -, rfl⟩ := List.mem_map.mp hctx
    rfl

/-- Witness for C5 at `n = 3`, `start = 2`, `end` absent: the slice is
`[1, 3)`, the first context is row offset 1 with display index 2, and its
display index is `table_index + 1`. -/
theorem load_rows_slice_and_display_index_witness :
    ((load_rows 3 (some 2) none).1)[0]? = some ⟨1, 2⟩ ∧
      (⟨1, 2⟩ : RowContextIdx).display_index = (⟨1, 2⟩ : RowContextIdx).table_index + 1 := by
  constructor
  · exact ((load_rows_slice_and_display_index 3 (some 2) none).2.2.1 0).trans (by decide)
  · exact (load_rows_slice_and_display_index 3 (some 2) none).2.2.2 ⟨1, 2⟩ (by decide)

/-- C1: `load_resume_entries` selects exactly the prior-log entries whose
display index lies in the inclusive range and whose level is OK; in
particular `{1: OK, 2: ERROR, 5: OK}` restricted to `[1, 3]` yields exactly
key 1. -/
theorem load_resume_entries_range_and_level :
    (∀ (rows : List CsvRow) (s e i : Nat) (r : CsvRow),
       (i, r) ∈ load_resume_entries rows s e ↔
         ((i, r) ∈ buildEntries rows ∧ s ≤ i ∧ i ≤ e ∧
           resumeEligibleLevel r.level = true)) ∧
      (load_resume_entries
          [⟨"1", "OK", "", ""⟩, ⟨"2", "ERROR", "", ""⟩, ⟨"5", "OK", "", ""⟩] 1 3).map
          Prod.fst = [1] := by
  constructor
  · intro rows s e i r
    unfold load_resume_entries
    rw [List.mem_filter]
    constructor
    · rintro ⟨hmem, hp⟩
      refine ⟨hmem, ?_, ?_, ?_⟩
      · by_contra hlt
        simp only [not_le] at hlt
        simp [hlt] at hp
      · by_contra hgt
        simp only [not_le] at hgt
        simp [hgt] at hp
      · by_cases h1 : i < s
        · simp [h1] at hp
        · by_cases h2 : e < i
          · simp [h2] at hp
          · simpa [h1, h2] using hp
    · rintro ⟨hmem, hsi, hie, hlev⟩
      refine ⟨hmem, ?_⟩
      have h1 : ¬ i < s := by omega
      have h2 : ¬ e < i := by omega
      simpa [h1, h2] using hlev
  · decide

lemma lookup_map_replace_ne (k : Nat) (v : CsvRow) :
    ∀ (m : List (Nat × CsvRow)) (i : Nat), i ≠ k →
      (m.map (fun p => if p.1 = k then (k, v) else p)).lookup i = m.lookup i := by
  intro m
  induction m with
  | nil => intro i _; rfl
  | cons p t ih =>
    intro i hik
    obtain ⟨a, b⟩ := p
    by_cases hak : a = k
    · subst hak
      simp [List.lookup_cons, beq_false_of_ne hik, ih i hik]
    · by_cases hia : i = a
      · subst hia
        simp [hak]
      · simp [hak, List.lookup_cons, beq_false_of_ne hia, ih i hik]

lemma lookup_map_replace_eq (k : Nat) (v : CsvRow) :
    ∀ (m : List (Nat × CsvRow)), m.any (fun p => decide (p.1 = k)) = true →
      (m.map (fun p => if p.1 = k then (k, v) else p)).lookup k = some v := by
  intro m
  induction m with
  | nil => intro h; simp at h
  | cons p t ih =>
    intro h
    obtain ⟨a, b⟩ := p
    by_cases hak : a = k
    · subst hak
      simp
    · have ht : t.any (fun p => decide (p.1 = k)) = true := by
        simp only [List.any_cons, Bool.or_eq_true, decide_eq_true_eq] at h
        rcases h with h | h
        · exact absurd h hak
        · exact h
      have hka : k ≠ a := fun hh => hak hh.symm
      simp [hak, List.lookup_cons, beq_false_of_ne hka, ih ht]

lemma lookup_append_single (k : Nat) (v : CsvRow) :
    ∀ (m : List (Nat × CsvRow)) (i : Nat), m.any (fun p => decide (p.1 = k)) = false →
      (m ++ [(k, v)]).lookup i = if i = k then some v else m.lookup i := by
  intro m
  induction m with
  | nil =>
    intro i _
    by_cases hik : i = k
    · subst hik
      simp
    · simp [List.lookup_cons, beq_false_of_ne hik, hik]
  | cons p t ih =>
    intro i h
    obtain ⟨a, b⟩ := p
    simp only [List.any_cons, Bool.or_eq_false_iff, decide_eq_false_iff_not] at h
    by_cases hia : i = a
    · subst hia
      simp [List.cons_append, List.lookup_cons, h.1]
    · simp [List.cons_append, List.lookup_cons, beq_false_of_ne hia, ih i h.2]

lemma lookup_dictInsert (m : List (Nat × CsvRow)) (k : Nat) (v : CsvRow) (i : Nat) :
    (dictInsert m k v).lookup i = if i = k then some v else m.lookup i := by
  unfold dictInsert
  cases hany : m.any (fun p => decide (p.1 = k)) with
  | true =>
    rw [if_pos rfl]
    by_cases hik : i = k
    · rw [if_pos hik, hik]
      exact lookup_map_replace_eq k v m hany
    · rw [if_neg hik]
      exact lookup_map_replace_ne k v m i hik
  | false =>
    simp only [Bool.false_eq_true, if_false]
    exact lookup_append_single k v m i hany


lemma getLast?_cons_ne_nil {α : Type} (a : α) {l : List α} (h : l ≠ []) :
    (a :: l).getLast? = l.getLast? := by
  cases l with
  | nil => exact absurd rfl h
  | cons b t => exact List.getLast?_cons_cons

lemma buildEntries_foldl_lookup (i : Nat) :
    ∀ (rows : List CsvRow) (acc : List (Nat × CsvRow)),
      (rows.foldl
          (fun acc row =>
            if pyIsdigit row.row_index then dictInsert acc (pyInt row.row_index) row
            else acc)
          acc).lookup i =
        match (rows.filter
            (fun row => pyIsdigit row.row_index && pyInt row.row_index == i)).getLast? with
        | some r => some r
        | none => acc.lookup i := by
  intro rows
  induction rows with
  | nil => intro acc; rfl
  | cons row rest ih =>
    intro acc
    rw [List.foldl_cons, ih, List.filter_cons]
    cases hrest : (rest.filter
        (fun row => pyIsdigit row.row_index && pyInt row.row_index == i)).getLast? with
    | some r =>
      have hne : rest.filter
          (fun row => pyIsdigit row.row_index && pyInt row.row_index == i) ≠ [] := by
        intro hnil
        rw [hnil] at hrest
        simp at hrest
      by_cases hp : (pyIsdigit row.row_index && pyInt row.row_index == i) = true
      · rw [if_pos hp, getLast?_cons_ne_nil row hne, hrest]
      · rw [if_neg hp, hrest]
    | none =>
      have hnil : rest.filter
          (fun row => pyIsdigit row.row_index && pyInt row.row_index == i) = [] :=
        List.getLast?_eq_none_iff.mp hrest
      rw [hnil]
      by_cases hd : pyIsdigit row.row_index = true
      · rw [if_pos hd, lookup_dictInsert]
        by_cases hk : pyInt row.row_index = i
        · have hp : (pyIsdigit row.row_index && pyInt row.row_index == i) = true := by
            simp [hd, hk]
          rw [if_pos hp, List.getLast?_singleton, if_pos hk.symm]
        · have hp : ¬ ((pyIsdigit row.row_index && pyInt row.row_index == i) = true) := by
            simp [hd, hk]
          have hik : ¬ (i = pyInt row.row_index) := fun hh => hk hh.symm
          rw [if_neg hp, if_neg hik]
          rfl
      · have hp : ¬ ((pyIsdigit row.row_index && pyInt row.row_index == i) = true) := by
          simp [hd]
        rw [if_neg hd, if_neg hp]
        rfl

/-- C9: the resume dict keeps, for each display index, the last prior-log row
in file order carrying that `row_index` (later rows overwrite earlier ones),
and a row whose `row_index` is not a digit string is ignored entirely. -/
theorem buildEntries_last_event_wins :
    (∀ (rows : List CsvRow) (i : Nat),
       (buildEntries rows).lookup i =
         (rows.filter
             (fun row => pyIsdigit row.row_index && pyInt row.row_index == i)).getLast?) ∧
      (∀ (rows : List CsvRow) (row : CsvRow), pyIsdigit row.row_index = false →
        buildEntries (rows ++ [row]) = buildEntries rows) := by
  constructor
  · intro rows i
    unfold buildEntries
    rw [buildEntries_foldl_lookup]
    cases (rows.filter
        (fun row => pyIsdigit row.row_index && pyInt row.row_index == i)).getLast? with
    | some r => rfl
    | none => rfl
  · intro rows row hd
    unfold buildEntries
    rw [List.foldl_append, List.foldl_cons, List.foldl_nil, if_neg (by simp [hd])]

/-- Witness for C9: with two prior-log rows for display index 3 the later one
wins, and appending a row with non-digit `row_index` leaves the dict
unchanged. -/
theorem buildEntries_last_event_wins_witness :
    (buildEntries [⟨"3", "ERROR", "", ""⟩, ⟨"3", "OK", "", ""⟩]).lookup 3
        = some ⟨"3", "OK", "", ""⟩ ∧
      buildEntries ([⟨"1", "OK", "", ""⟩] ++ [⟨"x", "OK", "", ""⟩])
        = buildEntries [⟨"1", "OK", "", ""⟩] := by
  constructor
  · exact (buildEntries_last_event_wins.1
      [⟨"3", "ERROR", "", ""⟩, ⟨"3", "OK", "", ""⟩] 3).trans (by decide)
  · exact buildEntries_last_event_wins.2 [⟨"1", "OK", "", ""⟩] ⟨"x", "OK", "", ""⟩
      (by decide)

/-- C4: a row whose opened form is already finalized (cancel-submit control
visible, no submit-final control visible) logs exactly one FINAL_SKIP event at
level OK, is counted as skipped — not ok and not error — and the loop
continues with the next row. -/
theorem finalized_form_counts_as_skip (opts : Options) (resume : List (Nat × CsvRow))
    (c : Ctx) (e : RowEnv) (pg : FormPage) (rest : List (Ctx × RowEnv))
    (hres : (if opts.resume then resume.lookup c.display_index else none) = none)
    (hclick : e.click = Except.ok true)
    (hdry : opts.dry_run = false)
    (hopen : e.openPage = true)
    (hfin : e.finalized = Except.ok (is_finalized_form pg))
    (hpg : pg.cancelSubmitVisible = true ∧ pg.submitFinalRoleVisible = false ∧
      pg.submitFinalTextVisible = false) :
    ((rowStep opts resume c e).1.events.filter (fun ev => ev.stage == "FINAL_SKIP"))
        = [⟨c.display_index, "OK", "FINAL_SKIP"⟩] ∧
      (rowStep opts resume c e).1.outcome = Outcome.skipRow ∧
      (runLoop opts resume ((c, e) :: rest)).skipped_rows
          = (runLoop opts resume rest).skipped_rows + 1 ∧
      (runLoop opts resume ((c, e) :: rest)).ok_rows
          = (runLoop opts resume rest).ok_rows ∧
      (runLoop opts resume ((c, e) :: rest)).error_rows
          = (runLoop opts resume rest).error_rows ∧
      (runLoop opts resume ((c, e) :: rest)).processed
          = c.display_index :: (runLoop opts resume rest).processed := by
  have hform : is_finalized_form pg = true := by
    obtain ⟨h1, h2, h3⟩ := hpg
    simp [is_finalized_form, h1, h2, h3]
  cases honote : e.openNote with
  | none =>
    have hstep : rowStep opts resume c e =
        (⟨[⟨c.display_index, "OK", "FINAL_SKIP"⟩], Outcome.skipRow, true⟩, resume) := by
      simp [rowStep, hres, hclick, hdry, hopen, hfin, hform, honote, Except.toOption]
    refine ⟨?_, ?_, ?_, ?_, ?_, ?_⟩ <;>
      simp [runLoop, hstep, List.filter, Nat.add_comm]
  | some note =>
    have hstep : rowStep opts resume c e =
        (⟨[⟨c.display_index, "OK", "OPEN_TAB"⟩, ⟨c.display_index, "OK", "FINAL_SKIP"⟩],
          Outcome.skipRow, true⟩, resume) := by
      simp [rowStep, hres, hclick, hdry, hopen, hfin, hform, honote, Except.toOption]
    refine ⟨?_, ?_, ?_, ?_, ?_, ?_⟩ <;>
      simp [runLoop, hstep, List.filter, Nat.add_comm]

/-- Witness for C4: a concrete finalized-form row between two other rows is
counted as skipped and processing continues. -/
theorem finalized_form_counts_as_skip_witness :
    ((rowStep ⟨"index", false, false, false⟩ []
        ⟨1, "", ""⟩
        ⟨Except.ok true, true, none,
          Except.ok (is_finalized_form ⟨true, false, false⟩), false,
          Except.error (), Except.error ()⟩).1.events.filter
        (fun ev => ev.stage == "FINAL_SKIP"))
      = [⟨1, "OK", "FINAL_SKIP"⟩] := by
  exact (finalized_form_counts_as_skip ⟨"index", false, false, false⟩ []
    ⟨1, "", ""⟩
    ⟨Except.ok true, true, none,
      Except.ok (is_finalized_form ⟨true, false, false⟩), false,
      Except.error (), Except.error ()⟩
    ⟨true, false, false⟩ [] (by decide) rfl rfl rfl rfl
    ⟨rfl, rfl, rfl⟩).1

/-- C3: with dry-run set and no resume entries, a row either fails at
edit-control detection (one CLICK_EDIT error event) or logs exactly one
DRY_RUN event at level OK and counts as ok; `open_form_page` is never
reached, a `perform_click = false` call of `click_edit_by_index` never
clicks, and two rows whose edit controls are found yield final counts
{ok: 2, error: 0, skip: 0}. -/
theorem dry_run_never_opens_form (opts : Options) (c : Ctx) (e : RowEnv)
    (hdry : opts.dry_run = true) :
    ((rowStep opts [] c e).1.formOpened = false ∧
      (((rowStep opts [] c e).1.outcome = Outcome.errorRow ∧
         (rowStep opts [] c e).1.events
           = [⟨c.display_index, "ERROR", "CLICK_EDIT"⟩]) ∨
        ((rowStep opts [] c e).1.outcome = Outcome.okRow ∧
         (rowStep opts [] c e).1.events
           = [⟨c.display_index, "OK", "DRY_RUN"⟩]))) ∧
      (∀ (tbl : List TableRowUi) (i : Nat),
        (click_edit_by_index tbl i false).2 = false) ∧
      ((runLoop ⟨"index", false, false, true⟩ []
          [(⟨1, "", ""⟩, ⟨Except.ok true, false, none, Except.ok false, false,
             Except.error (), Except.error ()⟩),
           (⟨2, "", ""⟩, ⟨Except.ok true, false, none, Except.ok false, false,
             Except.error (), Except.error ()⟩)]).ok_rows = 2 ∧
        (runLoop ⟨"index", false, false, true⟩ []
          [(⟨1, "", ""⟩, ⟨Except.ok true, false, none, Except.ok false, false,
             Except.error (), Except.error ()⟩),
           (⟨2, "", ""⟩, ⟨Except.ok true, false, none, Except.ok false, false,
             Except.error (), Except.error ()⟩)]).error_rows = 0 ∧
        (runLoop ⟨"index", false, false, true⟩ []
          [(⟨1, "", ""⟩, ⟨Except.ok true, false, none, Except.ok false, false,
             Except.error (), Except.error ()⟩),
           (⟨2, "", ""⟩, ⟨Except.ok true, false, none, Except.ok false, false,
             Except.error (), Except.error ()⟩)]).skipped_rows = 0) := by
  refine ⟨?_, ?_, by decide⟩
  · cases hc : e.click with
    | error u =>
      have hstep : (rowStep opts [] c e).1 =
          ⟨[⟨c.display_index, "ERROR", "CLICK_EDIT"⟩], Outcome.errorRow, false⟩ := by
        simp [rowStep, hc]
      rw [hstep]
      exact ⟨rfl, Or.inl ⟨rfl, rfl⟩⟩
    | ok clicked =>
      cases clicked with
      | false =>
        have hstep : (rowStep opts [] c e).1 =
            ⟨[⟨c.display_index, "ERROR", "CLICK_EDIT"⟩], Outcome.errorRow, false⟩ := by
          simp [rowStep, hc]
        rw [hstep]
        exact ⟨rfl, Or.inl ⟨rfl, rfl⟩⟩
      | true =>
        have hstep : (rowStep opts [] c e).1 =
            ⟨[⟨c.display_index, "OK", "DRY_RUN"⟩], Outcome.okRow, false⟩ := by
          simp [rowStep, hc, hdry]
        rw [hstep]
        exact ⟨rfl, Or.inr ⟨rfl, rfl⟩⟩
  · intro tbl i
    unfold click_edit_by_index
    cases tbl[i]? with
    | none => rfl
    | some row =>
      by_cases hb : row.hasEditBtn = true <;> by_cases hf : row.hasFallbackBtn = true <;>
        simp [hb, hf]

/-- Witness for C3 at a concrete dry-run option set and row environment. -/
theorem dry_run_never_opens_form_witness :
    (rowStep ⟨"index", false, false, true⟩ [] ⟨1, "", ""⟩
        ⟨Except.ok true, false, none, Except.ok false, false,
          Except.error (), Except.error ()⟩).1.formOpened = false :=
  (dry_run_never_opens_form ⟨"index", false, false, true⟩ ⟨1, "", ""⟩
    ⟨Except.ok true, false, none, Except.ok false, false,
      Except.error (), Except.error ()⟩ rfl).1.1

lemma haltCount_cons (r : RowResult) (s : List RowResult) (len : Nat) :
    haltCount (r :: s) (len + 1) =
      if r.outcome == Outcome.errorRow then 1 else haltCount s len + 1 := by
  cases hr : r.outcome == Outcome.errorRow with
  | true => simp [haltCount, firstErrIdx, hr]
  | false =>
    cases hfe : firstErrIdx s with
    | some j => simp [haltCount, firstErrIdx, hr, hfe]
    | none => simp [haltCount, firstErrIdx, hr, hfe]

lemma rowStep_error_iff (opts : Options) (resume : List (Nat × CsvRow)) (c : Ctx)
    (e : RowEnv) :
    (rowStep opts resume c e).1.outcome = Outcome.errorRow ↔
      ∃ ev ∈ (rowStep opts resume c e).1.events, ev.level = "ERROR" := by
  cases hres : (if opts.resume then resume.lookup c.display_index else none) with
  | some prev => simp [rowStep, hres]
  | none =>
    cases hclick : e.click with
    | error u => simp [rowStep, hres, hclick]
    | ok clicked =>
      cases clicked with
      | false => simp [rowStep, hres, hclick]
      | true =>
        by_cases hdry : opts.dry_run = true
        · simp [rowStep, hres, hclick, hdry]
        · cases hopen : e.openPage with
          | false => simp [rowStep, hres, hclick, hdry, hopen]
          | true =>
            cases honote : e.openNote with
            | none =>
              cases hfin : e.finalized.toOption.getD false with
              | true => simp [rowStep, hres, hclick, hdry, hopen, honote, hfin]
              | false =>
                cases hlock : e.locked with
                | true => simp [rowStep, hres, hclick, hdry, hopen, honote, hfin, hlock]
                | false =>
                  cases hfill : e.fill with
                  | error u =>
                    simp [rowStep, hres, hclick, hdry, hopen, honote, hfin, hlock, hfill]
                  | ok summary =>
                    by_cases herr : summary.errors = []
                    · cases hsub : e.submit with
                      | error u =>
                        simp [rowStep, hres, hclick, hdry, hopen, honote, hfin, hlock,
                          hfill, herr, hsub]
                      | ok code =>
                        by_cases hcode : code = "OK"
                        · simp [rowStep, hres, hclick, hdry, hopen, honote, hfin, hlock,
                            hfill, herr, hsub, hcode]
                        · simp [rowStep, hres, hclick, hdry, hopen, honote, hfin, hlock,
                            hfill, herr, hsub, hcode]
                    · simp [rowStep, hres, hclick, hdry, hopen, honote, hfin, hlock,
                        hfill, herr]
            | some note =>
              cases hfin : e.finalized.toOption.getD false with
              | true => simp [rowStep, hres, hclick, hdry, hopen, honote, hfin]
              | false =>
                cases hlock : e.locked with
                | true => simp [rowStep, hres, hclick, hdry, hopen, honote, hfin, hlock]
                | false =>
                  cases hfill : e.fill with
                  | error u =>
                    simp [rowStep, hres, hclick, hdry, hopen, honote, hfin, hlock, hfill]
                  | ok summary =>
                    by_cases herr : summary.errors = []
                    · cases hsub : e.submit with
                      | error u =>
                        simp [rowStep, hres, hclick, hdry, hopen, honote, hfin, hlock,
                          hfill, herr, hsub]
                      | ok code =>
                        by_cases hcode : code = "OK"
                        · simp [rowStep, hres, hclick, hdry, hopen, honote, hfin, hlock,
                            hfill, herr, hsub, hcode]
                        · simp [rowStep, hres, hclick, hdry, hopen, honote, hfin, hlock,
                            hfill, herr, hsub, hcode]
                    · simp [rowStep, hres, hclick, hdry, hopen, honote, hfin, hlock,
                        hfill, herr]

lemma runLoop_stop_take (opts : Options) (h : opts.stop_on_error = true) :
    ∀ (rows : List (Ctx × RowEnv)) (resume : List (Nat × CsvRow)),
      (runLoop opts resume rows).processed
          = (rows.map (fun p => p.1.display_index)).take
              (haltCount (runSeq opts resume rows) rows.length) ∧
        (runLoop opts resume rows).events
          = (((runSeq opts resume rows).map RowResult.events).take
              (haltCount (runSeq opts resume rows) rows.length)).flatten := by
  intro rows
  induction rows with
  | nil => intro resume; exact ⟨rfl, rfl⟩
  | cons pr rest ih =>
    intro resume
    obtain ⟨c, e⟩ := pr
    cases ho : (rowStep opts resume c e).1.outcome == Outcome.errorRow with
    | true =>
      have hcond : (opts.stop_on_error &&
          ((rowStep opts resume c e).1.outcome == Outcome.errorRow)) = true := by
        rw [h, ho]
        rfl
      refine ⟨?_, ?_⟩ <;>
        simp [runLoop, hcond, runSeq, haltCount_cons, ho, h, List.take_succ_cons]
    | false =>
      obtain ⟨ih1, ih2⟩ := ih (rowStep opts resume c e).2
      have hcond : (opts.stop_on_error &&
          ((rowStep opts resume c e).1.outcome == Outcome.errorRow)) = false := by
        rw [ho, Bool.and_false]
      refine ⟨?_, ?_⟩ <;>
        simp [runLoop, hcond, runSeq, haltCount_cons, ho, h, List.take_succ_cons, ih1, ih2]

lemma locked_row_never_halts (opts : Options) (resume : List (Nat × CsvRow))
    (c : Ctx) (e : RowEnv) (rest : List (Ctx × RowEnv))
    (hres : (if opts.resume then resume.lookup c.display_index else none) = none)
    (hclick : e.click = Except.ok true) (hdry : opts.dry_run = false)
    (hopen : e.openPage = true) (hfin : e.finalized.toOption.getD false = false)
    (hlock : e.locked = true) :
    (rowStep opts resume c e).1.outcome = Outcome.skipRow ∧
      (∀ ev ∈ (rowStep opts resume c e).1.events, ev.level ≠ "ERROR") ∧
      (∃ ev ∈ (rowStep opts resume c e).1.events, ev.level = "WARN") ∧
      (runLoop opts resume ((c, e) :: rest)).processed
          = c.display_index :: (runLoop opts resume rest).processed := by
  cases honote : e.openNote with
  | none =>
    have hstep : rowStep opts resume c e =
        (⟨[⟨c.display_index, "WARN", "ACCESS"⟩], Outcome.skipRow, true⟩, resume) := by
      simp [rowStep, hres, hclick, hdry, hopen, hfin, hlock, honote]
    refine ⟨?_, ?_, ?_, ?_⟩ <;> simp [runLoop, hstep]
  | some note =>
    have hstep : rowStep opts resume c e =
        (⟨[⟨c.display_index, "OK", "OPEN_TAB"⟩, ⟨c.display_index, "WARN", "ACCESS"⟩],
          Outcome.skipRow, true⟩, resume) := by
      simp [rowStep, hres, hclick, hdry, hopen, hfin, hlock, honote]
    refine ⟨?_, ?_, ?_, ?_⟩ <;> simp [runLoop, hstep]

/-- C2: with `stop_on_error` set, the run processes exactly the rows up to and
including the first ERROR-outcome row (whose events are still logged in full —
the halt lands on the row boundary), a row's outcome is ERROR exactly when it
logged an ERROR-level event, and a locked-form row (whose only adverse event
is a WARN) never halts the run whatever `stop_on_error` is. -/
theorem stop_on_error_halts_at_first_error :
    (∀ (opts : Options) (resume : List (Nat × CsvRow)) (rows : List (Ctx × RowEnv)),
       opts.stop_on_error = true →
       (runLoop opts resume rows).processed
           = (rows.map (fun p => p.1.display_index)).take
               (haltCount (runSeq opts resume rows) rows.length) ∧
         (runLoop opts resume rows).events
           = (((runSeq opts resume rows).map RowResult.events).take
               (haltCount (runSeq opts resume rows) rows.length)).flatten) ∧
      (∀ (opts : Options) (resume : List (Nat × CsvRow)) (c : Ctx) (e : RowEnv),
        (rowStep opts resume c e).1.outcome = Outcome.errorRow ↔
          ∃ ev ∈ (rowStep opts resume c e).1.events, ev.level = "ERROR") ∧
      (∀ (opts : Options) (resume : List (Nat × CsvRow)) (c : Ctx) (e : RowEnv)
        (rest : List (Ctx × RowEnv)),
        (if opts.resume then resume.lookup c.display_index else none) = none →
        e.click = Except.ok true → opts.dry_run = false → e.openPage = true →
        e.finalized.toOption.getD false = false → e.locked = true →
        (rowStep opts resume c e).1.outcome = Outcome.skipRow ∧
          (∀ ev ∈ (rowStep opts resume c e).1.events, ev.level ≠ "ERROR") ∧
          (∃ ev ∈ (rowStep opts resume c e).1.events, ev.level = "WARN") ∧
          (runLoop opts resume ((c, e) :: rest)).processed
              = c.display_index :: (runLoop opts resume rest).processed) :=
  ⟨fun opts resume rows h => runLoop_stop_take opts h rows resume,
    rowStep_error_iff, locked_row_never_halts⟩

/-- Witness for C2: a two-row run whose first row errors at CLICK_EDIT
processes only row 1 under `stop_on_error`, and a concrete locked row is
skipped, not halting. -/
theorem stop_on_error_halts_at_first_error_witness :
    (runLoop ⟨"index", true, false, false⟩ []
        [(⟨1, "", ""⟩, ⟨Except.error (), false, none, Except.ok false, false,
           Except.error (), Except.error ()⟩),
         (⟨2, "", ""⟩, ⟨Except.ok true, false, none, Except.ok false, false,
           Except.error (), Except.error ()⟩)]).processed = [1] ∧
      (rowStep ⟨"index", false, false, false⟩ [] ⟨1, "", ""⟩
          ⟨Except.ok true, true, none, Except.ok false, true,
            Except.error (), Except.error ()⟩).1.outcome = Outcome.skipRow := by
  constructor
  · exact ((stop_on_error_halts_at_first_error.1 ⟨"index", true, false, false⟩ []
      [(⟨1, "", ""⟩, ⟨Except.error (), false, none, Except.ok false, false,
         Except.error (), Except.error ()⟩),
       (⟨2, "", ""⟩, ⟨Except.ok true, false, none, Except.ok false, false,
         Except.error (), Except.error ()⟩)] rfl).1).trans (by decide)
  · exact (stop_on_error_halts_at_first_error.2.2 ⟨"index", false, false, false⟩ []
      ⟨1, "", ""⟩
      ⟨Except.ok true, true, none, Except.ok false, true,
        Except.error (), Except.error ()⟩ [] (by decide) rfl rfl rfl (by decide) rfl).1

end Sbr
